import Mathlib

/-!
Shallow embedding of the VertiGIS reporting client (`src/index.ts`).

The client submits a report job to a remote service and watches it to
completion.  The embedding models the pure decision logic of the source:
JavaScript truthiness, the status-payload evaluator
(`checkJobStatusResponse`), the WebSocket watcher (`watchJobWithSocket`),
the polling loop (`pollJob`), the watcher composition (`watchJob`),
credential exchange (`getBearerToken`), parameter marshaling (`startJob`),
URL assembly, and the portal-item URL regex (`parseItemUrl`).

Network effects are modelled by passing the sequence of fetch outcomes /
socket events a run would observe; thrown JavaScript errors are modelled
with `Except`.
-/

namespace Reporting

/-- JavaScript truthiness of a `string | undefined` value: `undefined` and
the empty string are falsy. -/
def jsTruthyStr : Option String → Bool
  | none => false
  | some s => s ≠ ""

/-- JavaScript truthiness of a `boolean | undefined` value. -/
def jsTruthyBool : Option Bool → Bool
  | none => false
  | some b => b

/-- JavaScript `a || b` for `a : string | undefined`: returns `b` when `a`
is `undefined` or the empty string. -/
def jsOrStr (a : Option String) (b : String) : String :=
  match a with
  | none => b
  | some s => if s = "" then b else s

/-- A thrown JavaScript `Error`, identified by its message. -/
structure JsError where
  message : String
deriving Repr, DecidableEq

/-- Model of `createError(statusText, status?)`: builds the thrown error's
message, including the numeric code only when one was supplied. -/
def createError (statusText : String) (status : Option Int) : JsError :=
  match status with
  | some s =>
      ⟨"Error code: " ++ toString s ++ ". Response error: \"" ++ statusText ++ "\""⟩
  | none => ⟨"Response error: \"" ++ statusText ++ "\""⟩

/-- One record of the `results` array of a job status response.  The
`$type` discriminator is modelled as `type`; all fields may be absent at
runtime. -/
structure JobStatusRecord where
  type : Option String
  code : Option Int
  message : Option String
  tag : Option String
deriving Repr, DecidableEq

/-- The top-level `error` field of a job status response
(`{message: string, status: number}`). -/
structure JobStatusError where
  message : String
  status : Int
deriving Repr, DecidableEq

/-- A job status response body (`JobStatusResponse` in the source):
optional `results` array and optional top-level `error`. -/
structure JobStatusResponse where
  results : Option (List JobStatusRecord)
  error : Option JobStatusError
deriving Repr, DecidableEq

/-- The generic fallback message used by `checkJobStatusResponse`. -/
def genericErrorMessage : String := "The request could not be completed."

/-- Predicate for `result["$type"] === "JobResult"`. -/
def isJobResult (r : JobStatusRecord) : Bool :=
  r.type == some "JobResult"

/-- Predicate for `result["$type"] === "JobQuit"`. -/
def isJobQuit (r : JobStatusRecord) : Bool :=
  r.type == some "JobQuit"

/-- Predicate for `result["$type"] && result["$type"].endsWith("error")`:
the type tag is a truthy string ending in the literal, case-sensitive
suffix `error`. -/
def isErrorTagged (r : JobStatusRecord) : Bool :=
  match r.type with
  | none => false
  | some s => (s ≠ "" : Bool) && s.endsWith "error"

/-- Model of `checkJobStatusResponse`: evaluates a status payload, either
returning the (possibly absent) tag of the first `JobResult` record,
`none` for a still-pending payload, or throwing. -/
def checkJobStatusResponse (response : JobStatusResponse) :
    Except JsError (Option String) :=
  match response.error with
  | some err => .error (createError err.message (some err.status))
  | none =>
    match response.results with
    | some results =>
      match results.find? isJobResult with
      | some result => .ok result.tag
      | none =>
        match results.find? isJobQuit with
        | some _ =>
          let errRecord := results.find? isErrorTagged
          let msg := jsOrStr (errRecord.bind (fun r => r.message)) genericErrorMessage
          .error (createError msg (errRecord.bind (fun r => r.code)))
        | none => .ok none
    | none => .error (createError genericErrorMessage none)

/-- Modelled from the claim's words, for comparison with
`checkJobStatusResponse`: the five-step precedence of status-payload
evaluation ((1) top-level error, (2) first `JobResult`, (3) `JobQuit`
with an `error`-suffixed record (message falling back to the generic
message), (4) pending, (5) neither field present). -/
def statusEvalSpec (payload : JobStatusResponse) : Except JsError (Option String) :=
  match payload.error with
  | some err => .error (createError err.message (some err.status))
  | none =>
    match payload.results with
    | some results =>
      match results.find? isJobResult with
      | some jobResult => .ok jobResult.tag
      | none =>
        match results.find? isJobQuit with
        | some _ =>
          match results.find? isErrorTagged with
          | some errRecord =>
              .error (createError (jsOrStr errRecord.message genericErrorMessage) errRecord.code)
          | none => .error (createError genericErrorMessage none)
        | none => .ok none
    | none => .error (createError genericErrorMessage none)

/-- A WebSocket status message (`WsJobStatusResponse` in the source):
extends the status response with an optional `final` flag. -/
structure WsJobStatusResponse where
  results : Option (List JobStatusRecord)
  error : Option JobStatusError
  final : Option Bool
deriving Repr, DecidableEq

/-- The upcast from `WsJobStatusResponse` to `JobStatusResponse` (in the
source the former structurally extends the latter). -/
def WsJobStatusResponse.toStatus (m : WsJobStatusResponse) : JobStatusResponse :=
  ⟨m.results, m.error⟩

/-- An event delivered to the WebSocket's listeners: a parsed `message`
event or an `error` event. -/
inductive SocketEvent where
  | message (data : WsJobStatusResponse)
  | errorEvent
deriving Repr, DecidableEq

/-- What one dispatch of a socket event does to the pending promise of
`watchJobWithSocket`: either some listener called `resolve` with a value,
or the message listener threw (the exception escapes the listener and the
promise is left unsettled by this event). -/
inductive ListenerOutcome where
  | resolved (tag : Option String)
  | threw (e : JsError)
deriving Repr, DecidableEq

/-- One event dispatch of `watchJobWithSocket`'s listeners: the `error`
listener resolves `undefined`; the `message` listener resolves `undefined`
on a `final` message, otherwise evaluates the payload with
`checkJobStatusResponse`, resolving a truthy tag, resolving `undefined`
on a falsy tag, and letting a thrown evaluation error escape. -/
def handleSocketEvent : SocketEvent → ListenerOutcome
  | .errorEvent => .resolved none
  | .message m =>
    if jsTruthyBool m.final then .resolved none
    else
      match checkJobStatusResponse m.toStatus with
      | .error e => .threw e
      | .ok tag => if jsTruthyStr tag then .resolved tag else .resolved none

/-- Model of `watchJobWithSocket` over the sequence of socket events a run
observes: the promise takes the value of the first event that resolves it
(a JS promise settles once); events whose listener threw leave it pending.
`none` means the promise was never settled. -/
def watchJobWithSocket : List SocketEvent → Option (Option String)
  | [] => none
  | e :: es =>
    match handleSocketEvent e with
    | .resolved v => some v
    | .threw _ => watchJobWithSocket es

/-- The outcome of one `fetch` call: a transport exception, a non-ok HTTP
response, or an ok response with a parsed JSON body. -/
inductive FetchResult (α : Type) where
  | transportError
  | httpError (statusText : String) (status : Int)
  | ok (body : α)
deriving Repr, DecidableEq

/-- Observable actions of the polling loop: the fixed delay and the status
request of each attempt. -/
inductive PollAction where
  | delay (ms : Nat)
  | request
deriving Repr, DecidableEq

/-- Model of `pollJob` over the sequence of fetch outcomes the loop
observes, instrumented with the actions it performs.  Each iteration waits
1000 ms, issues one request, throws on a transport error or a non-ok
status, evaluates the body, and loops while the tag is falsy.  The result
is `none` when the outcome list is exhausted with the loop still
running. -/
def pollJobTrace : List (FetchResult JobStatusResponse) →
    List PollAction × Option (Except JsError String)
  | [] => ([], none)
  | o :: rest =>
    match o with
    | .transportError =>
        ([.delay 1000, .request],
         some (.error ⟨"A network error occurred checking the job status."⟩))
    | .httpError statusText status =>
        ([.delay 1000, .request], some (.error (createError statusText (some status))))
    | .ok body =>
      match checkJobStatusResponse body with
      | .error e => ([.delay 1000, .request], some (.error e))
      | .ok none =>
          ([.delay 1000, .request] ++ (pollJobTrace rest).1, (pollJobTrace rest).2)
      | .ok (some t) =>
          if t = "" then
            ([.delay 1000, .request] ++ (pollJobTrace rest).1, (pollJobTrace rest).2)
          else ([.delay 1000, .request], some (.ok t))

/-- The result of the polling loop (`pollJob` in the source), without the
action trace. -/
def pollJob (outcomes : List (FetchResult JobStatusResponse)) :
    Option (Except JsError String) :=
  (pollJobTrace outcomes).2

/-- The error thrown by `watchJob` when no tag was produced. -/
def noTagError : JsError := createError "The service did not provide a tag." none

/-- The tail of `watchJob` once the polling loop is entered: polling's
result, with a falsy tag replaced by the final `noTagError` throw. -/
def watchFinishPoll (polls : List (FetchResult JobStatusResponse)) :
    Option (Except JsError String) :=
  match pollJob polls with
  | none => none
  | some (.error e) => some (.error e)
  | some (.ok t) => if jsTruthyStr (some t) then some (.ok t) else some (.error noTagError)

/-- Coarse observable actions of `watchJob`: opening the socket, the
socket promise settling, and the polling loop starting. -/
inductive WatchAction where
  | openSocket
  | socketSettled (tag : Option String)
  | startPolling
deriving Repr, DecidableEq

/-- Model of `watchJob`, instrumented with its actions.  When polling is
not requested and a WebSocket is available it awaits `watchJobWithSocket`
first; the polling loop runs only afterwards, and only when the socket was
skipped or settled with a falsy tag.  The overall result is `none` when
the run never returns (socket promise never settled, or polling still
looping). -/
def watchJobTrace (usePolling hasWebSocket : Bool) (events : List SocketEvent)
    (polls : List (FetchResult JobStatusResponse)) :
    List WatchAction × Option (Except JsError String) :=
  if !usePolling && hasWebSocket then
    match watchJobWithSocket events with
    | none => ([.openSocket], none)
    | some tag =>
      if jsTruthyStr tag then
        ([.openSocket, .socketSettled tag], some (.ok (tag.getD "")))
      else
        ([.openSocket, .socketSettled tag, .startPolling], watchFinishPoll polls)
  else ([.startPolling], watchFinishPoll polls)

/-- The result of `watchJob`, without the action trace. -/
def watchJob (usePolling hasWebSocket : Bool) (events : List SocketEvent)
    (polls : List (FetchResult JobStatusResponse)) :
    Option (Except JsError String) :=
  (watchJobTrace usePolling hasWebSocket events polls).2

/-- The nested body of a token-exchange response
(`{response?: {token?: string}}`). -/
structure TokenResponseInner where
  token : Option String
deriving Repr, DecidableEq

/-- A token-exchange response (`TokenResponse` in the source). -/
structure TokenResponse where
  response : Option TokenResponseInner
deriving Repr, DecidableEq

/-- Model of `getBearerToken`: with a falsy upstream token it returns the
empty string without a network call; otherwise it throws on transport or
HTTP failure and returns the string `Bearer ` followed by the (possibly
empty) extracted `response.token`. -/
def getBearerToken (token : Option String)
    (fetched : FetchResult TokenResponse) : Except JsError String :=
  if jsTruthyStr token = false then .ok ""
  else
    match fetched with
    | .transportError =>
        .error ⟨"A network error occurred fetching an authorization token."⟩
    | .httpError statusText status => .error (createError statusText (some status))
    | .ok responseJson =>
      let bearerToken :=
        jsOrStr (responseJson.response.bind (fun r => r.token)) ""
      .ok ("Bearer " ++ bearerToken)

/-- The headers `startJob` sends: `Content-Type` always, `Authorization`
only when the bearer-token string is truthy. -/
structure RequestHeaders where
  contentType : String
  authorization : Option String
deriving Repr, DecidableEq

/-- Model of the header assembly in `startJob`
(`if (bearerToken) requestOptions.headers["Authorization"] = bearerToken`). -/
def startJobHeaders (bearerToken : String) : RequestHeaders :=
  { contentType := "application/json"
    authorization := if bearerToken ≠ "" then some bearerToken else none }

/-- A scalar parameter value (`SingleParameterValue` in the source). -/
inductive ScalarValue where
  | str (s : String)
  | num (n : Int)
  | bool (b : Bool)
deriving Repr, DecidableEq

/-- A structured map value (`MapValue` in the source): the `$type`
discriminator plus its payload, modelled opaquely. -/
structure MapValue where
  type : String
  item : String
  itemData : String
deriving Repr, DecidableEq

/-- A caller-supplied parameter value: scalar, homogeneous array, or
structured map value. -/
inductive ParamValue where
  | scalar (v : ScalarValue)
  | array (vs : List ScalarValue)
  | map (m : MapValue)
deriving Repr, DecidableEq

/-- A marshaled submission parameter (`Parameter | MapParameter` in the
source): `{name, value}`, `{containsMultipleValues: true, name, values}`,
or the structured payload spread together with `{name}`. -/
inductive Parameter where
  | single (name : String) (value : ParamValue)
  | multi (name : String) (values : List ScalarValue)
  | mapParam (name : String) (m : MapValue)
deriving Repr, DecidableEq

/-- Model of the body of the marshaling loop of `startJob` over a list of
parameter entries, in the order `for (const name in parameters)` produces
them (see `forInOrder`).  Precedence: `Array.isArray` first, then a
truthy `$type` discriminator, else the single-value default. -/
def marshalParameters : List (String × ParamValue) → List Parameter
  | [] => []
  | (name, value) :: rest =>
    (match value with
     | .array vs => Parameter.multi name vs
     | .map m =>
       if m.type ≠ "" then Parameter.mapParam name m
       else Parameter.single name (.map m)
     | .scalar s => Parameter.single name (.scalar s)) :: marshalParameters rest

/-- Modelled from the claim's words, for comparison with
`marshalParameters`: the per-entry classification with the precedence
array value, then recognized type discriminator, then plain value. -/
def classifyParameter (name : String) (value : ParamValue) : Parameter :=
  match value with
  | .array vs => Parameter.multi name vs
  | .map m =>
    if m.type ≠ "" then Parameter.mapParam name m
    else Parameter.single name (.map m)
  | .scalar s => Parameter.single name (.scalar s)

/-- The array-index test JavaScript applies to own property keys: a key
is an array index when it is the canonical decimal representation of an
integer below 2^32 - 1 (digits only, no leading zero except `0` itself);
such keys are enumerated first by `for...in`.  Returns the numeric
value. -/
def arrayIndexKey? (s : String) : Option Nat :=
  if s.data ≠ [] ∧ (∀ c ∈ s.data, c.isDigit) ∧ (s = "0" ∨ s.data.head? ≠ some '0') then
    let n := s.data.foldl (fun acc c => acc * 10 + (c.toNat - 48)) 0
    if n < 4294967295 then some n else none
  else none

/-- The numeric value of an array-index entry (used only to order the
entries whose key is an array index). -/
def idxVal (e : String × ParamValue) : Nat :=
  (arrayIndexKey? e.1).getD 0

/-- Stable insertion of an entry into a list sorted by ascending numeric
key. -/
def insertByIdx (e : String × ParamValue) :
    List (String × ParamValue) → List (String × ParamValue)
  | [] => [e]
  | x :: xs => if idxVal e < idxVal x then e :: x :: xs else x :: insertByIdx e xs

/-- Stable insertion sort by ascending numeric key. -/
def sortByIndex : List (String × ParamValue) → List (String × ParamValue)
  | [] => []
  | e :: es => insertByIdx e (sortByIndex es)

/-- The order in which `for (const name in parameters)` enumerates the
own keys of an ordinary object: keys that are array indices first, in
ascending numeric order, then the remaining string keys in insertion
order.  The input list is the object's entries in insertion
(declaration) order. -/
def forInOrder (entries : List (String × ParamValue)) : List (String × ParamValue) :=
  sortByIndex (entries.filter (fun e => (arrayIndexKey? e.1).isSome)) ++
    entries.filter (fun e => !(arrayIndexKey? e.1).isSome)

/-- The parameter sequence `startJob` builds from the caller's mapping:
the marshaling loop applied to the entries in `for...in` order. -/
def startJobParams (entries : List (String × ParamValue)) : List Parameter :=
  marshalParameters (forInOrder entries)

/-- The service endpoint inferred from a portal item
(`` `${portalItemInfo.url}service` `` in `run`). -/
def apiServiceUrl (itemUrl : String) : String := itemUrl ++ "service"

/-- The token-exchange URL used by `getBearerToken`. -/
def tokenRunUrl (api : String) : String := api ++ "/auth/token/run"

/-- The job submission URL used by `startJob`. -/
def jobRunUrl (api : String) : String := api ++ "/job/run"

/-- The job status URL used by `pollJob` and (scheme aside)
`watchJobWithSocket`. -/
def jobArtifactsUrl (api ticket : String) : String :=
  api ++ "/job/artifacts?ticket=" ++ ticket

/-- The download URL assembled at the end of `run`. -/
def downloadUrl (api ticket tag : String) : String :=
  api ++ "/job/result?ticket=" ++ ticket ++ "&tag=" ++ tag

/-- ASCII lower-casing of a character, as the `i` regex flag applies it. -/
def lowerChar (c : Char) : Char :=
  if 'A' ≤ c ∧ c ≤ 'Z' then Char.ofNat (c.toNat + 32) else c

/-- The character class of the regex dot without the `s` flag: any
character except the line terminators LF, CR, U+2028 and U+2029. -/
def jsDot (c : Char) : Bool :=
  !(c = '\n' || c = '\r' || c = '\u2028' || c = '\u2029')

/-- Case-insensitive character comparison (the regex `i` flag). -/
def ciEq (a b : Char) : Bool := lowerChar a == lowerChar b

/-- Case-insensitive prefix test over character lists: `ciPrefixOf p s`
holds when the pattern `p` is a prefix of `s` up to letter case. -/
def ciPrefixOf : List Char → List Char → Bool
  | [], _ => true
  | _ :: _, [] => false
  | b :: bs, a :: as => ciEq a b && ciPrefixOf bs as

/-- The tail of the item-segment match: one dot-matchable character (the
unescaped regex dot of `item.html`, which excludes line terminators)
followed by `html`; on success returns the suffix after them. -/
def itemSegTail : List Char → Option (List Char)
  | c :: t => if jsDot c && ciPrefixOf "html".data t then some (t.drop 4) else none
  | [] => none

/-- Attempts to match the middle of the item regex, `/home/item.html`
(with the unescaped dot matching any character and matching
case-insensitive), at the head of `s`; on success returns the suffix
after the 15 matched characters. -/
def itemSegAt (s : List Char) : Option (List Char) :=
  if ciPrefixOf "/home/item".data s then itemSegTail (s.drop 10) else none

/-- Finds the first position of `s` where `itemSegAt` matches (the lazy
`.*?` before `/home/item.html`), returning the characters before the
match and the suffix after it.  The scan can only step past a
dot-matchable character: a line terminator stops it, as the `.*?` of the
source regex cannot match one. -/
def findItemSeg : List Char → Option (List Char × List Char)
  | [] => none
  | c :: rest =>
    match itemSegAt (c :: rest) with
    | some suffix => some ([], suffix)
    | none =>
      if jsDot c then
        match findItemSeg rest with
        | some (before, suffix) => some (c :: before, suffix)
        | none => none
      else none

/-- Membership in the character class `[a-f0-9]` under the `i` flag. -/
def isHexCI (c : Char) : Bool :=
  "abcdef0123456789".data.contains (lowerChar c)

/-- Finds the first occurrence of `id=` (case-insensitive) followed by at
least one `[a-f0-9]` character (the lazy `.*?id=` with backtracking past
occurrences not followed by a hex character), returning the greedy hex
run that `([a-f0-9]+)` captures.  As in `findItemSeg`, the scan only
steps past dot-matchable characters: a line terminator stops it. -/
def findId : List Char → Option (List Char)
  | [] => none
  | c :: rest =>
    if ciPrefixOf "id=".data (c :: rest) then
      let hexRun := ((c :: rest).drop 3).takeWhile isHexCI
      if hexRun.isEmpty then (if jsDot c then findId rest else none) else some hexRun
    else (if jsDot c then findId rest else none)

/-- Matches the anchored scheme part `https?:\/\/` case-insensitively at
the start of `s` (trying the longer `https://` first, as the greedy `s?`
does), returning the matched characters and the remaining suffix. -/
def stripScheme (s : List Char) : Option (List Char × List Char) :=
  if ciPrefixOf "https://".data s then some (s.take 8, s.drop 8)
  else if ciPrefixOf "http://".data s then some (s.take 7, s.drop 7)
  else none

/-- Model of `portalItemRegex.exec(url)` for the source pattern
`/^(https?:\/\/.*?)\/home\/item.html.*?id=([a-f0-9]+)/i`: on a match,
returns capture group 1 (the portal URL, everything from the scheme up to
the item segment) and capture group 2 (the hex id).  Taking the first
item-segment occurrence is faithful to backtracking: any `id=` match
after a later occurrence also lies after the first occurrence's end. -/
def execPortalItemRegex (url : List Char) : Option (List Char × List Char) :=
  match stripScheme url with
  | none => none
  | some (schemePart, rest) =>
    match findItemSeg rest with
    | none => none
    | some (before, suffix) =>
      match findId suffix with
      | none => none
      | some hexRun => some (schemePart ++ before, hexRun)

/-- The result record of `parseItemUrl`. -/
structure ParsedItemUrl where
  itemId : String
  portalUrl : String
deriving Repr, DecidableEq

/-- Model of `parseItemUrl`: returns the two capture groups on a match and
throws `The item URL is invalid.` otherwise. -/
def parseItemUrl (url : String) : Except JsError ParsedItemUrl :=
  match execPortalItemRegex url.data with
  | some (portalChars, idChars) => .ok ⟨⟨idChars⟩, ⟨portalChars⟩⟩
  | none => .error ⟨"The item URL is invalid."⟩

/-- Case-insensitive substring test, used to state that a URL lacks the
literal item segment even up to letter case. -/
def containsSubCI : List Char → List Char → Bool
  | [], needle => needle.isEmpty
  | c :: rest, needle => ciPrefixOf needle (c :: rest) || containsSubCI rest needle

/-- Two strings with the same character data are equal. -/
theorem strExt {a b : String} (h : a.data = b.data) : a = b := by
  cases a
  cases b
  exact congrArg String.mk h

/-- String concatenation concatenates the character data. -/
theorem strData_append (a b : String) : (a ++ b).data = a.data ++ b.data := by
  cases a
  cases b
  rfl

end Reporting

namespace Reporting

/-- C2: status-payload evaluation follows exactly the claimed precedence —
(1) a top-level error is raised first, without inspecting `results`;
(2) else the first `JobResult` record's tag is returned; (3) else a
`JobQuit` record raises with the message and code of the first record
whose type tag ends in the case-sensitive suffix `error` (generic message
when absent); (4) else a present `results` array means still pending;
(5) else the generic failure is raised.  Stated as equivalence of
`checkJobStatusResponse` with the spec-worded evaluator `statusEvalSpec`,
plus the results-independence of the error branch. -/
theorem checkJobStatusResponse_precedence :
    (∀ r : JobStatusResponse, checkJobStatusResponse r = statusEvalSpec r) ∧
    (∀ (res res' : Option (List JobStatusRecord)) (e : JobStatusError),
      checkJobStatusResponse ⟨res, some e⟩ = checkJobStatusResponse ⟨res', some e⟩) := by
  constructor
  · intro r
    obtain ⟨results, error⟩ := r
    cases error with
    | some err => rfl
    | none =>
      cases results with
      | none => rfl
      | some rs =>
        simp only [checkJobStatusResponse, statusEvalSpec]
        cases rs.find? isJobResult with
        | some result => rfl
        | none =>
          cases rs.find? isJobQuit with
          | none => rfl
          | some quit =>
            cases rs.find? isErrorTagged with
            | none => rfl
            | some errRecord => rfl
  · intro res res' e
    rfl

/-- The marshaling loop is the element-wise classification of the entries
it is given, in their order. -/
theorem marshalParameters_eq_map (ps : List (String × ParamValue)) :
    marshalParameters ps = ps.map (fun nv => classifyParameter nv.1 nv.2) := by
  induction ps with
  | nil => rfl
  | cons hd tl ih =>
    obtain ⟨name, value⟩ := hd
    simp only [marshalParameters, List.map, ih]
    rfl

/-- When no key is an array index, `for...in` enumerates the entries in
insertion order. -/
theorem forInOrder_of_no_index (entries : List (String × ParamValue))
    (h : ∀ e ∈ entries, (arrayIndexKey? e.1).isSome = false) :
    forInOrder entries = entries := by
  have hidx : entries.filter (fun e => (arrayIndexKey? e.1).isSome) = [] := by
    rw [List.filter_eq_nil_iff]
    intro e he
    simp [h e he]
  have hnamed : entries.filter (fun e => !(arrayIndexKey? e.1).isSome) = entries := by
    rw [List.filter_eq_self]
    intro e he
    simp [h e he]
  unfold forInOrder
  rw [hidx, hnamed]
  rfl

/-- C5 counterexample: for the mapping declared as `{b: "x", "0": "y"}`,
`for (const name in parameters)` enumerates the array-index key `"0"`
first, so `startJob` marshals the parameter named `0` before the one
named `b` — declaration order is not preserved. -/
theorem marshal_declaration_order_cex :
    startJobParams
        [("b", ParamValue.scalar (.str "x")), ("0", ParamValue.scalar (.str "y"))] =
      [Parameter.single "0" (ParamValue.scalar (.str "y")),
       Parameter.single "b" (ParamValue.scalar (.str "x"))] ∧
    startJobParams
        [("b", ParamValue.scalar (.str "x")), ("0", ParamValue.scalar (.str "y"))] ≠
      [Parameter.single "b" (ParamValue.scalar (.str "x")),
       Parameter.single "0" (ParamValue.scalar (.str "y"))] := by
  exact ⟨rfl, by decide⟩

/-- C5 amended: marshaling is deterministic and classifies each entry
with the claimed precedence (array value, then recognized `$type`
discriminator, then plain value), but the entries are enumerated in
JavaScript `for...in` order — keys that are array indices first, in
ascending numeric order, then the remaining keys in insertion order —
so declaration order is preserved exactly for mappings none of whose
keys is an array index; the spec's example is reproduced. -/
theorem marshal_parameters_amended :
    (∀ entries : List (String × ParamValue),
        startJobParams entries =
          (forInOrder entries).map (fun nv => classifyParameter nv.1 nv.2)) ∧
    (∀ entries : List (String × ParamValue),
        (∀ e ∈ entries, (arrayIndexKey? e.1).isSome = false) →
        startJobParams entries = entries.map (fun nv => classifyParameter nv.1 nv.2)) ∧
    startJobParams
        [("a", ParamValue.scalar (.str "x")),
         ("b", ParamValue.array [.num 1, .num 2, .num 3])] =
      [Parameter.single "a" (ParamValue.scalar (.str "x")),
       Parameter.multi "b" [ScalarValue.num 1, ScalarValue.num 2, ScalarValue.num 3]] := by
  refine ⟨?_, ?_, rfl⟩
  · intro entries
    exact marshalParameters_eq_map (forInOrder entries)
  · intro entries h
    unfold startJobParams
    rw [forInOrder_of_no_index entries h, marshalParameters_eq_map]

/-- Witness for `marshal_parameters_amended` at a concrete mapping with
no array-index key. -/
theorem marshal_parameters_amended_witness :
    startJobParams [("a", ParamValue.scalar (.str "x"))] =
      [Parameter.single "a" (ParamValue.scalar (.str "x"))] := by
  exact marshal_parameters_amended.2.1 [("a", ParamValue.scalar (.str "x"))] (by decide)

/-- C7: the download URL is the item's service endpoint (the same
`apiServiceUrl` string every other service URL is built from) followed by
`/service/job/result?ticket=` + ticket + `&tag=` + tag; the assembly is a
total string concatenation, and it reproduces the spec's example. -/
theorem downloadUrl_assembly :
    (∀ endp ticket tag : String,
        downloadUrl (apiServiceUrl (endp ++ "/")) ticket tag =
          endp ++ "/service/job/result?ticket=" ++ ticket ++ "&tag=" ++ tag) ∧
    (∀ itemUrl ticket tag : String,
        downloadUrl (apiServiceUrl itemUrl) ticket tag =
          apiServiceUrl itemUrl ++ ("/job/result?ticket=" ++ ticket ++ "&tag=" ++ tag)) ∧
    (∀ itemUrl ticket : String,
        jobArtifactsUrl (apiServiceUrl itemUrl) ticket =
          apiServiceUrl itemUrl ++ ("/job/artifacts?ticket=" ++ ticket)) ∧
    (∀ itemUrl : String,
        jobRunUrl (apiServiceUrl itemUrl) = apiServiceUrl itemUrl ++ "/job/run") ∧
    (∀ itemUrl : String,
        tokenRunUrl (apiServiceUrl itemUrl) = apiServiceUrl itemUrl ++ "/auth/token/run") ∧
    downloadUrl (apiServiceUrl "https://svc/") "TICK" "TAG" =
      "https://svc/service/job/result?ticket=TICK&tag=TAG" := by
  refine ⟨?_, ?_, ?_, ?_, ?_, rfl⟩
  · intro endp ticket tag
    apply strExt
    simp only [downloadUrl, apiServiceUrl, strData_append, List.append_assoc]
    rfl
  · intro itemUrl ticket tag
    apply strExt
    simp only [downloadUrl, apiServiceUrl, strData_append, List.append_assoc]
  · intro itemUrl ticket
    apply strExt
    simp only [jobArtifactsUrl, apiServiceUrl, strData_append, List.append_assoc]
  · intro itemUrl
    rfl
  · intro itemUrl
    rfl

/-- C3: for a streamed message, a `final` closure signal resolves the
watch inconclusive (never as a success tag); otherwise the payload is
evaluated: a truthy tag resolves the watch with that tag, and an
evaluation yielding no tag resolves inconclusive immediately after that
single non-terminal message, whatever events would follow. -/
theorem socket_message_handling :
    (∀ (m : WsJobStatusResponse) (es : List SocketEvent),
        jsTruthyBool m.final = true →
        watchJobWithSocket (SocketEvent.message m :: es) = some none) ∧
    (∀ (m : WsJobStatusResponse) (es : List SocketEvent) (t : String),
        jsTruthyBool m.final = false →
        checkJobStatusResponse m.toStatus = .ok (some t) → t ≠ "" →
        watchJobWithSocket (SocketEvent.message m :: es) = some (some t)) ∧
    (∀ (m : WsJobStatusResponse) (es : List SocketEvent),
        jsTruthyBool m.final = false →
        (checkJobStatusResponse m.toStatus = .ok none ∨
         checkJobStatusResponse m.toStatus = .ok (some "")) →
        watchJobWithSocket (SocketEvent.message m :: es) = some none) := by
  refine ⟨?_, ?_, ?_⟩
  · intro m es hfinal
    simp only [watchJobWithSocket, handleSocketEvent, hfinal, if_true]
  · intro m es t hfinal heval hne
    simp only [watchJobWithSocket, handleSocketEvent, hfinal, heval,
      Bool.false_eq_true, if_false]
    simp [jsTruthyStr, hne]
  · intro m es hfinal heval
    rcases heval with heval | heval <;>
      simp [watchJobWithSocket, handleSocketEvent, hfinal, heval, jsTruthyStr]

/-- Witness for `socket_message_handling` at concrete messages: a final
message, a `JobResult` message with tag `T`, and an empty-results pending
message. -/
theorem socket_message_handling_witness :
    watchJobWithSocket [SocketEvent.message ⟨none, none, some true⟩] = some none ∧
    watchJobWithSocket
        [SocketEvent.message ⟨some [⟨some "JobResult", none, none, some "T"⟩], none, none⟩] =
      some (some "T") ∧
    watchJobWithSocket [SocketEvent.message ⟨some [], none, none⟩] = some none := by
  refine ⟨?_, ?_, ?_⟩
  · exact socket_message_handling.1 ⟨none, none, some true⟩ [] rfl
  · exact socket_message_handling.2.1
      ⟨some [⟨some "JobResult", none, none, some "T"⟩], none, none⟩ [] "T"
      rfl rfl (by decide)
  · exact socket_message_handling.2.2 ⟨some [], none, none⟩ [] rfl (Or.inl rfl)

/-- C10: the polling loop only ever returns a non-empty tag (a falsy tag
keeps it looping, so a `JobResult` record with an absent or empty tag is
non-terminal), and therefore, once the polling loop is entered, the
watcher's final `The service did not provide a tag` branch never fires:
the watcher's outcome is the polling loop's outcome verbatim. -/
theorem pollJob_nonempty_tag :
    (∀ (outcomes : List (FetchResult JobStatusResponse)) (t : String),
        pollJob outcomes = some (.ok t) → t ≠ "") ∧
    (∀ (results : List JobStatusRecord) (r : JobStatusRecord)
        (rest : List (FetchResult JobStatusResponse)),
        results.find? isJobResult = some r →
        (r.tag = none ∨ r.tag = some "") →
        pollJob (FetchResult.ok ⟨some results, none⟩ :: rest) = pollJob rest) ∧
    (∀ polls : List (FetchResult JobStatusResponse),
        watchFinishPoll polls = pollJob polls) := by
  have hmain : ∀ (outcomes : List (FetchResult JobStatusResponse)) (t : String),
      pollJob outcomes = some (.ok t) → t ≠ "" := by
    intro outcomes
    induction outcomes with
    | nil => intro t h; simp [pollJob, pollJobTrace] at h
    | cons o rest ih =>
      intro t h
      cases o with
      | transportError => simp [pollJob, pollJobTrace] at h
      | httpError st s => simp [pollJob, pollJobTrace] at h
      | ok body =>
        simp only [pollJob, pollJobTrace] at h
        cases heval : checkJobStatusResponse body with
        | error e => rw [heval] at h; simp at h
        | ok tag =>
          rw [heval] at h
          cases tag with
          | none => exact ih t h
          | some t' =>
            have h' : (if t' = ""
                then ([PollAction.delay 1000, PollAction.request] ++ (pollJobTrace rest).1,
                      (pollJobTrace rest).2)
                else ([PollAction.delay 1000, PollAction.request],
                      some (Except.ok t'))).2 = some (Except.ok t) := h
            by_cases ht : t' = ""
            · rw [if_pos ht] at h'
              exact ih t h'
            · rw [if_neg ht] at h'
              simp at h'
              subst h'
              exact ht
  refine ⟨hmain, ?_, ?_⟩
  · intro results r rest hfind htag
    have heval : checkJobStatusResponse ⟨some results, none⟩ = .ok r.tag := by
      simp [checkJobStatusResponse, hfind]
    rcases htag with htag | htag <;>
      simp [pollJob, pollJobTrace, heval, htag]
  · intro polls
    unfold watchFinishPoll
    cases hp : pollJob polls with
    | none => rfl
    | some r =>
      cases r with
      | error e => rfl
      | ok t =>
        have hne : t ≠ "" := hmain polls t hp
        simp [jsTruthyStr, hne]

/-- Witness for `pollJob_nonempty_tag` at a concrete polling run that
returns tag `TAG`, and at a `JobResult` record with an empty tag. -/
theorem pollJob_nonempty_tag_witness :
    ("TAG" : String) ≠ "" ∧
    pollJob
        [FetchResult.ok ⟨some [⟨some "JobResult", none, none, some ""⟩], none⟩,
         FetchResult.ok ⟨some [⟨some "JobResult", none, none, some "TAG"⟩], none⟩] =
      pollJob [FetchResult.ok ⟨some [⟨some "JobResult", none, none, some "TAG"⟩], none⟩] := by
  constructor
  · exact pollJob_nonempty_tag.1
      [FetchResult.ok ⟨some [⟨some "JobResult", none, none, some "TAG"⟩], none⟩] "TAG" rfl
  · exact pollJob_nonempty_tag.2.1
      [⟨some "JobResult", none, none, some ""⟩] ⟨some "JobResult", none, none, some ""⟩
      [FetchResult.ok ⟨some [⟨some "JobResult", none, none, some "TAG"⟩], none⟩]
      rfl (Or.inr rfl)

/-- C8: every polling attempt is preceded by the fixed 1000 ms delay (the
trace is exactly an alternation of delay-then-request pairs, one per
attempt, strictly sequential), a transport exception or a non-ok HTTP
status ends the loop immediately with the corresponding error — the
remaining outcomes are never consumed, so the failed request is not
retried — and a pending evaluation makes the loop continue. -/
theorem pollJob_pacing_and_termination :
    (∀ outcomes : List (FetchResult JobStatusResponse),
        ∃ n, n ≤ outcomes.length ∧
          (pollJobTrace outcomes).1 =
            (List.replicate n [PollAction.delay 1000, PollAction.request]).flatten) ∧
    (∀ rest : List (FetchResult JobStatusResponse),
        pollJobTrace (FetchResult.transportError :: rest) =
          ([.delay 1000, .request],
           some (.error ⟨"A network error occurred checking the job status."⟩))) ∧
    (∀ (statusText : String) (status : Int)
        (rest : List (FetchResult JobStatusResponse)),
        pollJobTrace (FetchResult.httpError statusText status :: rest) =
          ([.delay 1000, .request],
           some (.error (createError statusText (some status))))) ∧
    (∀ (body : JobStatusResponse) (rest : List (FetchResult JobStatusResponse)),
        checkJobStatusResponse body = .ok none →
        pollJobTrace (FetchResult.ok body :: rest) =
          ([PollAction.delay 1000, PollAction.request] ++ (pollJobTrace rest).1,
           (pollJobTrace rest).2)) := by
  refine ⟨?_, ?_, ?_, ?_⟩
  · intro outcomes
    induction outcomes with
    | nil => exact ⟨0, by simp, rfl⟩
    | cons o rest ih =>
      obtain ⟨n, hn, htr⟩ := ih
      cases o with
      | transportError =>
        exact ⟨1, by simp, by simp [pollJobTrace]⟩
      | httpError st s =>
        exact ⟨1, by simp, by simp [pollJobTrace]⟩
      | ok body =>
        cases heval : checkJobStatusResponse body with
        | error e =>
          exact ⟨1, by simp, by simp [pollJobTrace, heval]⟩
        | ok tag =>
          cases tag with
          | none =>
            refine ⟨n + 1, by simp; omega, ?_⟩
            simp [pollJobTrace, heval, List.replicate_succ, htr]
          | some t =>
            by_cases ht : t = ""
            · refine ⟨n + 1, by simp; omega, ?_⟩
              simp [pollJobTrace, heval, ht, List.replicate_succ, htr]
            · exact ⟨1, by simp, by simp [pollJobTrace, heval, ht]⟩
  · intro rest
    rfl
  · intro statusText status rest
    rfl
  · intro body rest heval
    simp [pollJobTrace, heval]

/-- Witness for `pollJob_pacing_and_termination` at a concrete pending
response followed by a transport error. -/
theorem pollJob_pacing_witness :
    pollJobTrace
        [FetchResult.ok ⟨some [], none⟩, FetchResult.transportError] =
      ([PollAction.delay 1000, PollAction.request] ++
         (pollJobTrace [FetchResult.transportError]).1,
       (pollJobTrace [FetchResult.transportError]).2) := by
  exact pollJob_pacing_and_termination.2.2.2 ⟨some [], none⟩
    [FetchResult.transportError] rfl

/-- C4 counterexample: a successful token-exchange response whose body
lacks the nested `response.token` field does not degrade to an empty
credential — `getBearerToken` returns the non-empty string `Bearer `
(trailing space, empty token), and a job submission with that credential
sends the `Authorization` header with that degenerate value instead of
omitting it. -/
theorem bearer_missing_token_cex :
    getBearerToken (some "T") (FetchResult.ok ⟨some ⟨none⟩⟩) = .ok "Bearer " ∧
    ("Bearer " : String) ≠ "" ∧
    (startJobHeaders "Bearer ").authorization = some "Bearer " := by
  refine ⟨rfl, by decide, rfl⟩

/-- C4 amended: a missing `response.token` in a successful exchange
degrades without error to the credential string `Bearer ` (an empty token
after the scheme); `getBearerToken` returns the empty credential exactly
when the upstream token is absent or empty; and `startJob` omits the
`Authorization` header exactly when the credential string is empty,
sending it verbatim otherwise. -/
theorem bearer_token_degradation_amended :
    (∀ (token : Option String) (r : TokenResponse),
        jsTruthyStr token = true →
        (r.response.bind (fun x => x.token) = none ∨
         r.response.bind (fun x => x.token) = some "") →
        getBearerToken token (FetchResult.ok r) = .ok "Bearer ") ∧
    (∀ fetched : FetchResult TokenResponse,
        getBearerToken none fetched = .ok "") ∧
    ((startJobHeaders "").authorization = none) ∧
    (∀ b : String, b ≠ "" → (startJobHeaders b).authorization = some b) := by
  refine ⟨?_, ?_, rfl, ?_⟩
  · intro token r htok hmiss
    simp only [getBearerToken, htok, Bool.true_eq_false, if_false]
    rcases hmiss with hmiss | hmiss <;> simp [hmiss, jsOrStr]
  · intro fetched
    rfl
  · intro b hb
    simp [startJobHeaders, hb]

/-- Witness for `bearer_token_degradation_amended` at a concrete upstream
token, a concrete tokenless response, and a concrete non-empty
credential. -/
theorem bearer_token_degradation_witness :
    getBearerToken (some "T") (FetchResult.ok ⟨none⟩) = .ok "Bearer " ∧
    getBearerToken none FetchResult.transportError = .ok "" ∧
    (startJobHeaders "Bearer tok").authorization = some "Bearer tok" := by
  refine ⟨?_, ?_, ?_⟩
  · exact bearer_token_degradation_amended.1 (some "T") ⟨none⟩ rfl (Or.inl rfl)
  · exact bearer_token_degradation_amended.2.1 FetchResult.transportError
  · exact bearer_token_degradation_amended.2.2.2 "Bearer tok" (by decide)

/-- C1 counterexample: a streamed status payload that evaluates to an
error (here a payload carrying a top-level error) is not downgraded to a
fall-back to polling: the message listener throws, the watch promise is
never settled by that event, so polling never starts — the watch resolves
inconclusive on neither channel, contradicting the claim that every
streamed payload evaluating to an error falls back to polling. -/
theorem socket_error_payload_hangs_cex :
    checkJobStatusResponse
        (WsJobStatusResponse.toStatus ⟨none, some ⟨"boom", 500⟩, none⟩) =
      .error (createError "boom" (some 500)) ∧
    watchJobWithSocket [SocketEvent.message ⟨none, some ⟨"boom", 500⟩, none⟩] ≠
      some none ∧
    watchJobWithSocket [SocketEvent.message ⟨none, some ⟨"boom", 500⟩, none⟩] =
      none := by
  refine ⟨rfl, by decide, rfl⟩

/-- C1 amended: a channel-level error, or a streamed payload evaluating
to no result, resolves the watch inconclusive (fall back to polling) and
is never surfaced as a hard failure; a streamed payload that evaluates to
an error is likewise never surfaced to the caller, but instead of
resolving, its exception escapes the message listener, leaving the watch
unsettled by that event (it settles only if a later event settles it);
and when the streaming channel resolves inconclusive and polling then
fails, the error the caller sees is the polling loop's error. -/
theorem socket_failures_downgraded_amended :
    (∀ es : List SocketEvent,
        watchJobWithSocket (SocketEvent.errorEvent :: es) = some none) ∧
    (∀ (m : WsJobStatusResponse) (es : List SocketEvent),
        jsTruthyBool m.final = false →
        (checkJobStatusResponse m.toStatus = .ok none ∨
         checkJobStatusResponse m.toStatus = .ok (some "")) →
        watchJobWithSocket (SocketEvent.message m :: es) = some none) ∧
    (∀ (m : WsJobStatusResponse) (es : List SocketEvent) (e : JsError),
        jsTruthyBool m.final = false →
        checkJobStatusResponse m.toStatus = .error e →
        watchJobWithSocket (SocketEvent.message m :: es) = watchJobWithSocket es) ∧
    (∀ (es : List SocketEvent) (polls : List (FetchResult JobStatusResponse))
        (e : JsError),
        watchJobWithSocket es = some none →
        pollJob polls = some (.error e) →
        watchJob false true es polls = some (.error e)) := by
  refine ⟨?_, ?_, ?_, ?_⟩
  · intro es
    rfl
  · intro m es hfinal heval
    rcases heval with heval | heval <;>
      simp [watchJobWithSocket, handleSocketEvent, hfinal, heval, jsTruthyStr]
  · intro m es e hfinal heval
    simp [watchJobWithSocket, handleSocketEvent, hfinal, heval]
  · intro es polls e hsock hpoll
    simp [watchJob, watchJobTrace, hsock, jsTruthyStr, watchFinishPoll, hpoll]

/-- Witness for `socket_failures_downgraded_amended` at a concrete
channel error, a concrete pending message, a concrete error payload, and
a concrete failing polling run. -/
theorem socket_failures_downgraded_witness :
    watchJobWithSocket [SocketEvent.errorEvent] = some none ∧
    watchJobWithSocket
        [SocketEvent.message ⟨some [], none, none⟩, SocketEvent.errorEvent] =
      some none ∧
    watchJobWithSocket
        [SocketEvent.message ⟨none, some ⟨"boom", 500⟩, none⟩,
         SocketEvent.errorEvent] =
      watchJobWithSocket [SocketEvent.errorEvent] ∧
    watchJob false true [SocketEvent.errorEvent] [FetchResult.transportError] =
      some (.error ⟨"A network error occurred checking the job status."⟩) := by
  refine ⟨?_, ?_, ?_, ?_⟩
  · exact socket_failures_downgraded_amended.1 []
  · exact socket_failures_downgraded_amended.2.1 ⟨some [], none, none⟩
      [SocketEvent.errorEvent] rfl (Or.inl rfl)
  · exact socket_failures_downgraded_amended.2.2.1 ⟨none, some ⟨"boom", 500⟩, none⟩
      [SocketEvent.errorEvent] (createError "boom" (some 500)) rfl rfl
  · exact socket_failures_downgraded_amended.2.2.2 [SocketEvent.errorEvent]
      [FetchResult.transportError]
      ⟨"A network error occurred checking the job status."⟩ rfl rfl

/-- C9 counterexample: in a concrete execution in which both strategies
participate (the socket settles inconclusive and polling then resolves
the job), the polling loop is initiated strictly after the streaming
channel settles — position 2 of the action trace versus position 1 —
so the two operations are not simultaneously initiated and there is no
first-settles-wins race between them. -/
theorem watchJob_sequential_cex :
    (watchJobTrace false true [SocketEvent.errorEvent]
        [FetchResult.ok ⟨some [⟨some "JobResult", none, none, some "TAG"⟩], none⟩]).1 =
      [WatchAction.openSocket, WatchAction.socketSettled none,
       WatchAction.startPolling] ∧
    (watchJobTrace false true [SocketEvent.errorEvent]
        [FetchResult.ok ⟨some [⟨some "JobResult", none, none, some "TAG"⟩], none⟩]).1.indexOf
        WatchAction.startPolling = 2 ∧
    (watchJobTrace false true [SocketEvent.errorEvent]
        [FetchResult.ok ⟨some [⟨some "JobResult", none, none, some "TAG"⟩], none⟩]).1.indexOf
        (WatchAction.socketSettled none) = 1 ∧
    (watchJobTrace false true [SocketEvent.errorEvent]
        [FetchResult.ok ⟨some [⟨some "JobResult", none, none, some "TAG"⟩], none⟩]).2 =
      some (.ok "TAG") := by
  refine ⟨rfl, by decide, by decide, rfl⟩

/-- C9 amended: the watcher composes the two strategies sequentially, not
as a race — when streaming is enabled and available it opens the socket
and awaits its settlement; a truthy streamed tag resolves the watch with
polling never initiated; an inconclusive settlement initiates polling
afterwards, whose outcome is the caller's outcome; an unsettled socket
promise means polling never starts; and when streaming is skipped the
watch is polling alone — so exactly one of the two strategies determines
the outcome presented to the caller. -/
theorem watchJob_sequential_amended :
    (∀ (es : List SocketEvent) (polls : List (FetchResult JobStatusResponse))
        (t : String),
        watchJobWithSocket es = some (some t) → t ≠ "" →
        watchJobTrace false true es polls =
          ([WatchAction.openSocket, WatchAction.socketSettled (some t)],
           some (.ok t))) ∧
    (∀ (es : List SocketEvent) (polls : List (FetchResult JobStatusResponse)),
        watchJobWithSocket es = some none →
        watchJobTrace false true es polls =
          ([WatchAction.openSocket, WatchAction.socketSettled none,
            WatchAction.startPolling],
           watchFinishPoll polls)) ∧
    (∀ (es : List SocketEvent) (polls : List (FetchResult JobStatusResponse)),
        watchJobWithSocket es = none →
        watchJobTrace false true es polls = ([WatchAction.openSocket], none)) ∧
    (∀ (usePolling hasWebSocket : Bool) (es : List SocketEvent)
        (polls : List (FetchResult JobStatusResponse)),
        (!usePolling && hasWebSocket) = false →
        watchJobTrace usePolling hasWebSocket es polls =
          ([WatchAction.startPolling], watchFinishPoll polls)) := by
  refine ⟨?_, ?_, ?_, ?_⟩
  · intro es polls t hsock ht
    simp [watchJobTrace, hsock, jsTruthyStr, ht]
  · intro es polls hsock
    simp [watchJobTrace, hsock, jsTruthyStr]
  · intro es polls hsock
    simp [watchJobTrace, hsock]
  · intro usePolling hasWebSocket es polls hcfg
    simp [watchJobTrace, hcfg]

/-- Witness for `watchJob_sequential_amended` at concrete runs: a socket
that resolves tag `T`, a socket that resolves inconclusive, a socket that
never settles, and an explicit polling request. -/
theorem watchJob_sequential_witness :
    watchJobTrace false true
        [SocketEvent.message ⟨some [⟨some "JobResult", none, none, some "T"⟩], none, none⟩]
        [] =
      ([WatchAction.openSocket, WatchAction.socketSettled (some "T")],
       some (.ok "T")) ∧
    watchJobTrace false true [SocketEvent.errorEvent] [] =
      ([WatchAction.openSocket, WatchAction.socketSettled none,
        WatchAction.startPolling], watchFinishPoll []) ∧
    watchJobTrace false true [] [] = ([WatchAction.openSocket], none) ∧
    watchJobTrace true true [] [] =
      ([WatchAction.startPolling], watchFinishPoll []) := by
  refine ⟨?_, ?_, ?_, ?_⟩
  · exact watchJob_sequential_amended.1
      [SocketEvent.message ⟨some [⟨some "JobResult", none, none, some "T"⟩], none, none⟩]
      [] "T" rfl (by decide)
  · exact watchJob_sequential_amended.2.1 [SocketEvent.errorEvent] [] rfl
  · exact watchJob_sequential_amended.2.2.1 [] [] rfl
  · exact watchJob_sequential_amended.2.2.2 true true [] [] rfl

/-- Case-insensitive comparison is reflexive. -/
theorem ciEq_refl (c : Char) : ciEq c c = true := by
  simp [ciEq]

/-- Every list is a case-insensitive prefix of itself extended by any
suffix. -/
theorem ciPrefixOf_append_self (p r : List Char) : ciPrefixOf p (p ++ r) = true := by
  induction p with
  | nil => rfl
  | cons c cs ih => simp [ciPrefixOf, ciEq_refl, ih]

/-- The item segment does not match at a head character that is not a
slash (up to case). -/
theorem itemSegAt_of_ne (c : Char) (rest : List Char) (h : ciEq c '/' = false) :
    itemSegAt (c :: rest) = none := by
  have hcond : ciPrefixOf "/home/item".data (c :: rest) = false := by
    show (ciEq c '/' && ciPrefixOf "home/item".data rest) = false
    rw [h]
    rfl
  unfold itemSegAt
  rw [hcond]
  rfl

/-- Scanning step of `findItemSeg` past a dot-matchable position where
the segment does not match. -/
theorem findItemSeg_cons_none (c : Char) (rest : List Char)
    (h1 : itemSegAt (c :: rest) = none) (h2 : jsDot c = true) :
    findItemSeg (c :: rest) =
      match findItemSeg rest with
      | some (before, suffix) => some (c :: before, suffix)
      | none => none := by
  conv_lhs => rw [findItemSeg]
  rw [h1, h2]
  rfl

/-- The first item-segment occurrence in `host ++ "/home/item.html" ++ tail`
is at the boundary when the host part contains no character that
case-insensitively equals `/` and no line terminator. -/
theorem findItemSeg_after_host (hostC tailC : List Char)
    (hhost : ∀ c ∈ hostC, ciEq c '/' = false)
    (hdot : ∀ c ∈ hostC, jsDot c = true) :
    findItemSeg (hostC ++ ("/home/item.html".data ++ tailC)) = some (hostC, tailC) := by
  induction hostC with
  | nil => rfl
  | cons c hs ih =>
    have hc : ciEq c '/' = false := hhost c (by simp)
    have hrest : ∀ x ∈ hs, ciEq x '/' = false := fun x hx => hhost x (by simp [hx])
    have hdrest : ∀ x ∈ hs, jsDot x = true := fun x hx => hdot x (by simp [hx])
    show findItemSeg (c :: (hs ++ ("/home/item.html".data ++ tailC))) = some (c :: hs, tailC)
    rw [findItemSeg_cons_none c _ (itemSegAt_of_ne c _ hc) (hdot c (by simp)),
      ih hrest hdrest]

/-- Computing `takeWhile` keeps a list all of whose elements are hex
characters. -/
theorem takeWhile_isHexCI_all (l : List Char) (h : ∀ c ∈ l, isHexCI c = true) :
    l.takeWhile isHexCI = l := by
  induction l with
  | nil => rfl
  | cons c cs ih =>
    have hc : isHexCI c = true := h c (by simp)
    have hcs : ∀ x ∈ cs, isHexCI x = true := fun x hx => h x (by simp [hx])
    simp [List.takeWhile_cons, hc, ih hcs]

/-- After the item segment, the first `id=` occurrence followed by a hex
character in `?id=<hex>` captures exactly the hex run. -/
theorem findId_after_query (hexC : List Char) (hne : hexC ≠ [])
    (hhex : ∀ c ∈ hexC, isHexCI c = true) :
    findId ("?id=".data ++ hexC) = some hexC := by
  obtain ⟨c0, cs, rfl⟩ : ∃ c0 cs, hexC = c0 :: cs := by
    cases hexC with
    | nil => exact absurd rfl hne
    | cons a b => exact ⟨a, b, rfl⟩
  have h3 : (c0 :: cs).takeWhile isHexCI = c0 :: cs := takeWhile_isHexCI_all _ hhex
  show findId ('?' :: ("id=".data ++ (c0 :: cs))) = some (c0 :: cs)
  conv_lhs => rw [findId]
  rw [show ciPrefixOf "id=".data ('?' :: ("id=".data ++ (c0 :: cs))) = false from rfl]
  show findId ('i' :: ('d' :: ('=' :: (c0 :: cs)))) = some (c0 :: cs)
  conv_lhs => rw [findId]
  rw [show ciPrefixOf "id=".data ('i' :: ('d' :: ('=' :: (c0 :: cs)))) = true from
    ciPrefixOf_append_self "id=".data (c0 :: cs)]
  show (if ((c0 :: cs).takeWhile isHexCI).isEmpty = true
      then (if jsDot 'i' = true then findId ('d' :: ('=' :: (c0 :: cs))) else none)
      else some ((c0 :: cs).takeWhile isHexCI)) = some (c0 :: cs)
  rw [h3]
  rfl

/-- The scheme matcher on a URL beginning with `https://`. -/
theorem stripScheme_https (t : List Char) :
    stripScheme ("https://".data ++ t) = some ("https://".data, t) := rfl

/-- The scheme matcher on a URL beginning with `http://`. -/
theorem stripScheme_http (t : List Char) :
    stripScheme ("http://".data ++ t) = some ("http://".data, t) := rfl

/-- The full regex on a well-formed portal item URL, at the character
level: it captures the scheme-plus-host part and the hex id. -/
theorem execPortalItemRegex_valid (sd hostC hexC : List Char)
    (hstrip : stripScheme (sd ++ (hostC ++ ("/home/item.html".data ++ ("?id=".data ++ hexC)))) =
      some (sd, hostC ++ ("/home/item.html".data ++ ("?id=".data ++ hexC))))
    (hhost : ∀ c ∈ hostC, ciEq c '/' = false)
    (hdot : ∀ c ∈ hostC, jsDot c = true)
    (hne : hexC ≠ []) (hhex : ∀ c ∈ hexC, isHexCI c = true) :
    execPortalItemRegex (sd ++ (hostC ++ ("/home/item.html".data ++ ("?id=".data ++ hexC)))) =
      some (sd ++ hostC, hexC) := by
  unfold execPortalItemRegex
  rw [hstrip]
  show (match findItemSeg (hostC ++ ("/home/item.html".data ++ ("?id=".data ++ hexC))) with
    | none => none
    | some (before, suffix) =>
      match findId suffix with
      | none => none
      | some hexRun => some (sd ++ before, hexRun)) = some (sd ++ hostC, hexC)
  rw [findItemSeg_after_host hostC ("?id=".data ++ hexC) hhost hdot]
  show (match findId ("?id=".data ++ hexC) with
    | none => none
    | some hexRun => some (sd ++ hostC, hexRun)) = some (sd ++ hostC, hexC)
  rw [findId_after_query hexC hne hhex]

/-- C6 counterexample: the URL `https://h/home/itemzhtml?id=ab` does not
contain the path segment `/home/item.html` (not even up to letter case),
yet `parseItemUrl` accepts it — the unescaped dot of the source regex
matches the `z` — contradicting the claim that every URL missing that
segment fails with an error. -/
theorem parseItemUrl_dot_wildcard_cex :
    containsSubCI "https://h/home/itemzhtml?id=ab".data "/home/item.html".data = false ∧
    parseItemUrl "https://h/home/itemzhtml?id=ab" =
      .ok ⟨"ab", "https://h"⟩ := by
  exact ⟨by decide, rfl⟩

/-- C6 amended: every URL of the form
`http(s)://<host>/home/item.html?id=<hex>` (host free of slashes and of
line terminators, non-empty hex id) parses to the hex id and the
scheme-plus-host portal URL; and `parseItemUrl` throws
`The item URL is invalid.` exactly when the match fails — no `http(s)://`
prefix (case-insensitive), no reachable occurrence of `/home/item` + one
dot-matchable character + `html` (case-insensitive) after it, or no
later reachable `id=` followed by a hex digit, where the lazy `.*?`
scans can only step past characters the JS dot matches (line terminators
stop them): a URL such as `https://h/home/itemzhtml?id=ab`, which lacks
the literal `/home/item.html` segment, is nevertheless accepted, while a
line terminator before the segment makes the parse fail. -/
theorem parseItemUrl_amended :
    (∀ (s host hex : String),
        (s = "http" ∨ s = "https") →
        (∀ c ∈ host.data, ciEq c '/' = false) →
        (∀ c ∈ host.data, jsDot c = true) →
        hex.data ≠ [] →
        (∀ c ∈ hex.data, isHexCI c = true) →
        parseItemUrl (s ++ "://" ++ host ++ "/home/item.html?id=" ++ hex) =
          .ok ⟨hex, s ++ "://" ++ host⟩) ∧
    parseItemUrl "https://h\nx/home/item.html?id=ab" =
      .error ⟨"The item URL is invalid."⟩ ∧
    (∀ url : String, stripScheme url.data = none →
        parseItemUrl url = .error ⟨"The item URL is invalid."⟩) ∧
    (∀ (url : String) (p rest : List Char),
        stripScheme url.data = some (p, rest) → findItemSeg rest = none →
        parseItemUrl url = .error ⟨"The item URL is invalid."⟩) ∧
    (∀ (url : String) (p rest before sfx : List Char),
        stripScheme url.data = some (p, rest) →
        findItemSeg rest = some (before, sfx) → findId sfx = none →
        parseItemUrl url = .error ⟨"The item URL is invalid."⟩) := by
  refine ⟨?_, rfl, ?_, ?_, ?_⟩
  · intro s host hex hsch hhost hdot hne hhex
    obtain ⟨hostC⟩ := host
    obtain ⟨hexC⟩ := hex
    rcases hsch with rfl | rfl
    · have hdata : ("http" ++ "://" ++ (⟨hostC⟩ : String) ++ "/home/item.html?id=" ++
            (⟨hexC⟩ : String)).data =
          "http://".data ++ (hostC ++ ("/home/item.html".data ++ ("?id=".data ++ hexC))) := by
        simp only [strData_append, List.append_assoc]
        rfl
      unfold parseItemUrl
      rw [hdata,
        execPortalItemRegex_valid "http://".data hostC hexC (stripScheme_http _) hhost hdot
          hne hhex]
      rfl
    · have hdata : ("https" ++ "://" ++ (⟨hostC⟩ : String) ++ "/home/item.html?id=" ++
            (⟨hexC⟩ : String)).data =
          "https://".data ++ (hostC ++ ("/home/item.html".data ++ ("?id=".data ++ hexC))) := by
        simp only [strData_append, List.append_assoc]
        rfl
      unfold parseItemUrl
      rw [hdata,
        execPortalItemRegex_valid "https://".data hostC hexC (stripScheme_https _) hhost hdot
          hne hhex]
      rfl
  · intro url h1
    have hexec : execPortalItemRegex url.data = none := by
      unfold execPortalItemRegex
      rw [h1]
    unfold parseItemUrl
    rw [hexec]
  · intro url p rest h1 h2
    have hexec : execPortalItemRegex url.data = none := by
      unfold execPortalItemRegex
      rw [h1]
      show (match findItemSeg rest with
        | none => none
        | some (before, sfx) =>
          match findId sfx with
          | none => none
          | some hexRun => some (p ++ before, hexRun)) = none
      rw [h2]
    unfold parseItemUrl
    rw [hexec]
  · intro url p rest before sfx h1 h2 h3
    have hexec : execPortalItemRegex url.data = none := by
      unfold execPortalItemRegex
      rw [h1]
      show (match findItemSeg rest with
        | none => none
        | some (b, sf) =>
          match findId sf with
          | none => none
          | some hexRun => some (p ++ b, hexRun)) = none
      rw [h2]
      show (match findId sfx with
        | none => none
        | some hexRun => some (p ++ before, hexRun)) = none
      rw [h3]
    unfold parseItemUrl
    rw [hexec]

/-- Witness for `parseItemUrl_amended` at a concrete valid URL and the
three concrete failure shapes: no scheme, no item segment, and no id. -/
theorem parseItemUrl_amended_witness :
    parseItemUrl ("https" ++ "://" ++ "h" ++ "/home/item.html?id=" ++ "ab") =
      .ok ⟨"ab", "https" ++ "://" ++ "h"⟩ ∧
    parseItemUrl "x" = .error ⟨"The item URL is invalid."⟩ ∧
    parseItemUrl "https://a" = .error ⟨"The item URL is invalid."⟩ ∧
    parseItemUrl "https://h/home/item.html?id=" = .error ⟨"The item URL is invalid."⟩ := by
  refine ⟨?_, ?_, ?_, ?_⟩
  · exact parseItemUrl_amended.1 "https" "h" "ab" (Or.inr rfl) (by decide) (by decide)
      (by decide) (by decide)
  · exact parseItemUrl_amended.2.2.1 "x" (by decide)
  · exact parseItemUrl_amended.2.2.2.1 "https://a" "https://".data ['a'] (by decide)
      (by decide)
  · exact parseItemUrl_amended.2.2.2.2 "https://h/home/item.html?id="
      "https://".data "h/home/item.html?id=".data ['h'] "?id=".data
      (by decide) (by decide) (by decide)


end Reporting
